import Mathlib

/-!
Shallow embedding of `notebooks/01_broadcast_join.py`.

The notebook fetches country reference data from REST Countries and
users/carts from DummyJSON, builds a sales fact table, and enriches it with a
broadcast left join on `country_code`, in three stages:

* `get_countries_df` keeps the response entries whose `cca2` field is truthy
  (neither absent nor the empty string) and projects them to
  `(country_code, country_name, region)`.
* `get_sales_df` normalizes each user's address country into a code
  (`(u.address.country or "XX")[:2].upper()` in the source), extracts
  `(sale_id, userId, amount)` from each cart, left joins carts onto users on
  `userId`, projects `(sale_id, country_code, amount)` and rounds `amount`
  to 2 decimal places.
* `df_enriched` left joins the fact table onto the (broadcast) country table
  on `country_code` and projects
  `(sale_id, amount, country_name, region)`.

Modelling choices: a DataFrame is a list of row structures; a JSON null or
absent field is `Option.none`; Python floats and Spark doubles are exact
rationals; Spark's `F.round(col, 2)` is decimal HALF_UP rounding (half away
from zero).  A Spark left join pairs each left row with every matching right
row and keeps an unmatched left row with nulls on the right side; a null join
key matches nothing (SQL equality semantics).  The paginated fetch loops
concatenate pages, so an API response is modelled as the already-concatenated
list of records; the broadcast hint and the Delta write are performance and
persistence directives with no effect on the rows produced.
-/

namespace BroadcastJoin

/-- One entry of the REST Countries response, restricted to the fields the
notebook reads: the optional `cca2` code, the mandatory common name and the
optional `region`. -/
structure CountryJson where
  cca2 : Option String
  nameCommon : String
  region : Option String
deriving DecidableEq

/-- A row of the country dimension table built by `get_countries_df`. -/
structure CountryRow where
  country_code : Option String
  country_name : String
  region : Option String
deriving DecidableEq

/-- Python truthiness of an optional string: `None` and `""` are falsy. -/
def truthy : Option String → Bool
  | none => false
  | some s => !s.isEmpty

/-- The list comprehension of `get_countries_df`: keep entries with a truthy
`cca2` and project the three columns. -/
def get_countries_df (data : List CountryJson) : List CountryRow :=
  (data.filter fun c => truthy c.cca2).map fun c =>
    { country_code := c.cca2, country_name := c.nameCommon, region := c.region }

/-- One entry of the DummyJSON users response, restricted to the fields the
notebook reads: `id` and the address country (null modelled as `none`). -/
structure UserJson where
  id : Nat
  country : Option String
deriving DecidableEq

/-- Python's `x or dflt` on an optional string: falsy (`None` or empty)
falls back to the default. -/
def pyOr (s : Option String) (dflt : String) : String :=
  match s with
  | none => dflt
  | some v => if v.isEmpty then dflt else v

/-- Python's `str.upper()` on one code point is the Unicode full case
mapping, which can produce several characters.  It is modelled here on the
inputs this development evaluates it at: the one-to-one ASCII mapping via
`Char.toUpper` (the identity beyond ASCII) together with the one-to-many
special case `ß → SS`; on ASCII strings and on `ß` this is exactly
CPython's mapping. -/
def pyUpperChar (c : Char) : List Char :=
  if c = 'ß' then ['S', 'S'] else [c.toUpper]

/-- Python's `s[:2].upper()`: slice the first two code points, then
upper-case each through the full case mapping (so the result can be longer
than two characters). -/
def pySlice2Upper (s : String) : String :=
  String.mk ((s.toList.take 2).flatMap pyUpperChar)

/-- The user country normalization `(u.address.country or "XX")[:2].upper()`. -/
def normalizeCountry (c : Option String) : String :=
  pySlice2Upper (pyOr c "XX")

/-- A row of the users side of the fact build (`users_rows` in the source). -/
structure UserRow where
  userId : Nat
  country_code : String
deriving DecidableEq

/-- The `users_rows` comprehension: one row per fetched user record. -/
def users_rows (users : List UserJson) : List UserRow :=
  users.map fun u => { userId := u.id, country_code := normalizeCountry u.country }

/-- One entry of the DummyJSON carts response, restricted to the fields the
notebook reads: `id`, `userId` and the numeric `total`. -/
structure CartJson where
  id : Nat
  userId : Nat
  total : ℚ
deriving DecidableEq

/-- A row of the carts side of the fact build (`sales_rows` in the source). -/
structure SaleRow where
  sale_id : String
  userId : Nat
  amount : ℚ
deriving DecidableEq

/-- The `sales_rows` comprehension: stringify the cart id, keep `userId`,
cast the total to a number (the cast is the identity on the rational
model). -/
def sales_rows (carts : List CartJson) : List SaleRow :=
  carts.map fun cart =>
    { sale_id := toString cart.id, userId := cart.userId, amount := cart.total }

/-- Spark left (outer) join: each left row pairs with every matching right
row; a left row with no match survives once with nulls on the right side. -/
def leftJoin {α β γ : Type} (left : List α) (right : List β)
    (key : α → β → Bool) (both : α → β → γ) (noMatch : α → γ) : List γ :=
  left.flatMap fun a =>
    if (right.filter (key a)).isEmpty then [noMatch a]
    else (right.filter (key a)).map (both a)

/-- HALF_UP rounding to an integer: round half away from zero, as
`java.math.RoundingMode.HALF_UP` used by Spark's `round`. -/
def roundHalfUp (q : ℚ) : ℤ :=
  if 0 ≤ q then ⌊q + 1 / 2⌋ else -⌊-q + 1 / 2⌋

/-- Spark's `F.round(col, 2)`: HALF_UP rounding to 2 decimal places. -/
def roundTo2 (q : ℚ) : ℚ :=
  (roundHalfUp (q * 100) : ℚ) / 100

/-- A row of the sales fact table produced by `get_sales_df`:
`country_code` is null when the cart's user was not found. -/
structure SalesFactRow where
  sale_id : String
  country_code : Option String
  amount : ℚ
deriving DecidableEq

/-- The fact build: left join carts onto users on `userId`, project
`(sale_id, country_code, amount)`, round `amount` to 2 decimals. -/
def get_sales_df (users : List UserJson) (carts : List CartJson) :
    List SalesFactRow :=
  (leftJoin (sales_rows carts) (users_rows users)
      (fun s u => s.userId == u.userId)
      (fun s u =>
        ({ sale_id := s.sale_id, country_code := some u.country_code,
           amount := s.amount } : SalesFactRow))
      (fun s =>
        ({ sale_id := s.sale_id, country_code := none,
           amount := s.amount } : SalesFactRow))).map
    fun r => { r with amount := roundTo2 r.amount }

/-- SQL equality on the nullable join key: null matches nothing, not even
null. -/
def joinKeyMatch : Option String → Option String → Bool
  | some a, some b => a == b
  | _, _ => false

/-- A row of the final enriched output: `country_name` and `region` are null
when the fact row's `country_code` has no match in the country table. -/
structure EnrichedRow where
  sale_id : String
  amount : ℚ
  country_name : Option String
  region : Option String
deriving DecidableEq

/-- The enrichment join: fact table left-joined onto the country table on
`country_code`, projecting `(sale_id, amount, country_name, region)`. -/
def df_enriched (sales : List SalesFactRow) (countries : List CountryRow) :
    List EnrichedRow :=
  leftJoin sales countries
    (fun s c => joinKeyMatch s.country_code c.country_code)
    (fun s c =>
      { sale_id := s.sale_id, amount := s.amount,
        country_name := some c.country_name, region := c.region })
    (fun s =>
      { sale_id := s.sale_id, amount := s.amount,
        country_name := none, region := none })

/-- The three API responses a run of the notebook consumes, each already
concatenated across pages. -/
structure ApiResponses where
  countries : List CountryJson
  users : List UserJson
  carts : List CartJson
deriving DecidableEq

/-- The whole notebook as a function of its three API responses. -/
def pipeline (r : ApiResponses) : List EnrichedRow :=
  df_enriched (get_sales_df r.users r.carts) (get_countries_df r.countries)

/-- An optional code that is present and consists of exactly two letters
(the filter the spec attributes to the reference-data loader). -/
def hasTwoLetterCode : Option String → Bool
  | none => false
  | some s => s.length == 2

/-- An optional `cca2` field is well formed when, if present and non-empty,
it is a 2-letter string. -/
def validCca2 : Option String → Bool
  | none => true
  | some s => s.isEmpty || (s.length == 2)

/-- A country API response is valid when every `cca2` field is well formed:
present non-empty codes are 2-letter strings. -/
def validCountriesResponse (data : List CountryJson) : Prop :=
  ∀ c ∈ data, validCca2 c.cca2 = true

-- Sample data reused by witnesses.

/-- A well-formed REST Countries entry. -/
def sampleCountryJson : CountryJson :=
  { cca2 := some "US", nameCommon := "United States", region := some "Americas" }

/-- A REST Countries entry with no `cca2` code. -/
def sampleBadCountryJson : CountryJson :=
  { cca2 := none, nameCommon := "Atlantis", region := none }

/-- A country dimension row. -/
def sampleCountryRow : CountryRow :=
  { country_code := some "US", country_name := "United States",
    region := some "Americas" }

/-- A second country dimension row with the same code as
`sampleCountryRow`. -/
def sampleCountryRowDup : CountryRow :=
  { country_code := some "US", country_name := "United States of America",
    region := some "Americas" }

/-- A DummyJSON user whose address country is the string `USA`. -/
def sampleUser : UserJson := { id := 1, country := some "USA" }

/-- A DummyJSON cart with total 12.345 belonging to `sampleUser`. -/
def sampleCart : CartJson := { id := 1, userId := 1, total := 2469 / 200 }

/-- A fact row whose code matches `sampleCountryRow`. -/
def sampleFact : SalesFactRow :=
  { sale_id := "1", country_code := some "US", amount := 10 }

/-- A fact row whose code matches no row of `[sampleCountryRow]`. -/
def sampleFactNoMatch : SalesFactRow :=
  { sale_id := "2", country_code := some "ZZ", amount := 5 }

/-- The enrichment of `sampleFact` by `sampleCountryRow`. -/
def sampleEnriched : EnrichedRow :=
  { sale_id := "1", amount := 10, country_name := some "United States",
    region := some "Americas" }

/-- The enriched row the sample responses produce: the cart total 12.345,
rounded when the fact table is built, joined with `United States`. -/
def sampleEnrichedRounded : EnrichedRow :=
  { sale_id := "1", amount := roundTo2 (2469 / 200),
    country_name := some "United States", region := some "Americas" }

/-- One full set of API responses. -/
def sampleResponses : ApiResponses :=
  { countries := [sampleCountryJson], users := [sampleUser],
    carts := [sampleCart] }

-- General lemmas about the join model.

/-- Two right keys matched by the same left key are equal. -/
lemma joinKeyMatch_right_eq {k a b : Option String}
    (ha : joinKeyMatch k a = true) (hb : joinKeyMatch k b = true) : a = b := by
  cases k with
  | none => simp [joinKeyMatch] at ha
  | some v =>
    cases a with
    | none => simp [joinKeyMatch] at ha
    | some x =>
      cases b with
      | none => simp [joinKeyMatch] at hb
      | some y =>
        simp only [joinKeyMatch, beq_iff_eq] at ha hb
        rw [← ha, ← hb]

/-- A filter whose accepted elements all share one key value keeps at most
one element of a list whose key values are pairwise distinct. -/
lemma length_filter_le_one_of_nodup_keys {β κ : Type} [DecidableEq κ]
    (l : List β) (f : β → κ) (p : β → Bool)
    (hnd : (l.map f).Nodup)
    (hp : ∀ b1 b2, p b1 = true → p b2 = true → f b1 = f b2) :
    (l.filter p).length ≤ 1 := by
  induction l with
  | nil => simp
  | cons b l ih =>
    simp only [List.map_cons, List.nodup_cons] at hnd
    by_cases hb : p b = true
    · have hnil : l.filter p = [] := by
        refine List.filter_eq_nil_iff.mpr fun x hx hpx => ?_
        have hkey : f x = f b := hp x b hpx hb
        exact hnd.1 (hkey ▸ List.mem_map_of_mem f hx)
      rw [List.filter_cons_of_pos hb, hnil]
      simp
    · rw [List.filter_cons_of_neg (by simpa using hb)]
      exact ih hnd.2

/-- When every left row matches at most one right row, the left join has
exactly one output row per left row. -/
lemma leftJoin_length {α β γ : Type} (left : List α) (right : List β)
    (key : α → β → Bool) (both : α → β → γ) (noMatch : α → γ)
    (h : ∀ a, (right.filter (key a)).length ≤ 1) :
    (leftJoin left right key both noMatch).length = left.length := by
  induction left with
  | nil => rfl
  | cons a l ih =>
    have hone :
        (if (right.filter (key a)).isEmpty then [noMatch a]
          else (right.filter (key a)).map (both a)).length = 1 := by
      rcases hm : right.filter (key a) with _ | ⟨b, t⟩
      · simp
      · have hle := h a
        rw [hm] at hle
        rcases t with _ | ⟨b2, t2⟩
        · simp [hm]
        · simp at hle
    rw [leftJoin, List.flatMap_cons, List.length_append, ← leftJoin, ih, hone]
    simp [Nat.add_comm]

/-- Every output row of a left join comes from some left row, either
unmatched or paired with a matching right row. -/
lemma mem_leftJoin {α β γ : Type} {left : List α} {right : List β}
    {key : α → β → Bool} {both : α → β → γ} {noMatch : α → γ} {r : γ}
    (hr : r ∈ leftJoin left right key both noMatch) :
    ∃ a, a ∈ left ∧
      (r = noMatch a ∨ ∃ b, b ∈ right ∧ key a b = true ∧ r = both a b) := by
  simp only [leftJoin, List.mem_flatMap] at hr
  obtain ⟨a, ha, hr⟩ := hr
  refine ⟨a, ha, ?_⟩
  by_cases he : (right.filter (key a)).isEmpty
  · rw [if_pos he] at hr
    simp only [List.mem_singleton] at hr
    exact Or.inl hr
  · rw [if_neg he] at hr
    simp only [List.mem_map] at hr
    obtain ⟨b, hb, hcomb⟩ := hr
    have hbf := List.mem_filter.mp hb
    exact Or.inr ⟨b, hbf.1, hbf.2, hcomb.symm⟩

/-- Every left row survives into the output of a left join, either
unmatched or paired with some right row. -/
lemma leftJoin_covers {α β γ : Type} {left : List α} (right : List β)
    (key : α → β → Bool) (both : α → β → γ) (noMatch : α → γ)
    {a : α} (ha : a ∈ left) :
    ∃ r, r ∈ leftJoin left right key both noMatch ∧
      (r = noMatch a ∨ ∃ b, b ∈ right ∧ r = both a b) := by
  by_cases he : (right.filter (key a)).isEmpty
  · refine ⟨noMatch a, ?_, Or.inl rfl⟩
    simp only [leftJoin, List.mem_flatMap]
    exact ⟨a, ha, by rw [if_pos he]; simp⟩
  · rcases hm : right.filter (key a) with _ | ⟨b, t⟩
    · rw [hm] at he
      simp at he
    · have hb : b ∈ right.filter (key a) := by rw [hm]; exact List.mem_cons_self b t
      refine ⟨both a b, ?_, Or.inr ⟨b, (List.mem_filter.mp hb).1, rfl⟩⟩
      simp only [leftJoin, List.mem_flatMap]
      exact ⟨a, ha, by rw [if_neg he]; exact List.mem_map_of_mem _ hb⟩

/-- A left row matching no right row appears in the output through the
null-filling branch. -/
lemma leftJoin_noMatch_mem {α β γ : Type} {left : List α} (right : List β)
    (key : α → β → Bool) (both : α → β → γ) (noMatch : α → γ)
    {a : α} (ha : a ∈ left) (hn : ∀ b ∈ right, key a b = false) :
    noMatch a ∈ leftJoin left right key both noMatch := by
  have he : right.filter (key a) = [] :=
    List.filter_eq_nil_iff.mpr fun b hb => by simp [hn b hb]
  simp only [leftJoin, List.mem_flatMap]
  exact ⟨a, ha, by rw [he]; simp⟩

/-- The rounded amount times 100 is an integer: `roundTo2` really lands on
a grid of hundredths. -/
lemma roundTo2_mul_100_den (q : ℚ) : (roundTo2 q * 100).den = 1 := by
  have h : roundTo2 q * 100 = (roundHalfUp (q * 100) : ℚ) := by
    rw [roundTo2, div_mul_cancel₀]
    norm_num
  rw [h]
  exact Rat.den_intCast _

-- Claim theorems.

/-- C2: a user record whose address country field is empty or missing gets
the sentinel country code `XX`. -/
theorem missing_country_yields_sentinel (c : Option String)
    (h : c = none ∨ c = some "") :
    normalizeCountry c = "XX" := by
  rcases h with rfl | rfl <;> decide

/-- Witness for C2 at the missing (null) country field. -/
theorem missing_country_yields_sentinel_witness :
    normalizeCountry none = "XX" :=
  missing_country_yields_sentinel none (Or.inl rfl)

/-- C8 counterexample: the one-character country field `ß` is normalized
through Python's full case mapping to the two-letter code `SS`, not to a
one-character string. -/
theorem one_letter_country_sharp_s_two_letters :
    "ß".length = 1 ∧ normalizeCountry (some "ß") = "SS" ∧
      (normalizeCountry (some "ß")).length = 2 := by
  decide

/-- C8 (amended): a country field consisting of a single ASCII character is
normalized to that character upper-cased: a one-character code, neither a
2-letter code nor the sentinel `XX`.  (A character with a one-to-many
uppercase mapping, such as `ß`, can instead produce a 2-letter code.) -/
theorem one_letter_country_kept (s : String) (h : s.length = 1)
    (ha : ∀ c ∈ s.toList, c.toNat < 128) :
    normalizeCountry (some s) = String.mk (s.toList.map Char.toUpper) ∧
      (normalizeCountry (some s)).length = 1 ∧
      normalizeCountry (some s) ≠ "XX" := by
  have hl : s.toList.length = 1 := h
  obtain ⟨c, hc⟩ := List.length_eq_one.mp hl
  have hcd : s.data = [c] := hc
  have hascii : c.toNat < 128 := ha c (by rw [hc]; exact List.mem_singleton_self c)
  have hnotss : c ≠ 'ß' := by
    intro he
    rw [he] at hascii
    exact absurd hascii (by decide)
  have hne : s.isEmpty = false := by
    cases hi : s.isEmpty
    · rfl
    · have hs : s = "" := (String.isEmpty_iff s).mp hi
      rw [hs] at hl
      exact absurd hl (by decide)
  have hval : normalizeCountry (some s) = String.mk [c.toUpper] := by
    simp [normalizeCountry, pyOr, pySlice2Upper, pyUpperChar, hne, hcd, hnotss]
  refine ⟨by rw [hval, hc]; simp, by rw [hval]; rfl, ?_⟩
  rw [hval]
  intro heq
  have hlen : (String.mk [c.toUpper]).length = 1 := rfl
  rw [heq] at hlen
  exact absurd hlen (by decide)

/-- Witness for C8 at the one-letter ASCII country field `f`. -/
theorem one_letter_country_kept_witness :
    normalizeCountry (some "f") = String.mk ("f".toList.map Char.toUpper) ∧
      (normalizeCountry (some "f")).length = 1 ∧
      normalizeCountry (some "f") ≠ "XX" :=
  one_letter_country_kept "f" (by decide) (by decide)

/-- C7: the i-th extracted sales row carries the stringified id, the userId
and the total of the i-th fetched cart record. -/
theorem sales_rows_extract_fields (carts : List CartJson) (i : Nat)
    (h : i < carts.length) :
    ∃ cart, carts[i]? = some cart ∧
      (sales_rows carts)[i]? =
        some { sale_id := toString cart.id, userId := cart.userId,
               amount := cart.total } := by
  refine ⟨carts[i], List.getElem?_eq_getElem h, ?_⟩
  simp [sales_rows, List.getElem?_map, List.getElem?_eq_getElem h]

/-- Witness for C7 at a one-cart list. -/
theorem sales_rows_extract_fields_witness :
    ∃ cart, [sampleCart][0]? = some cart ∧
      (sales_rows [sampleCart])[0]? =
        some { sale_id := toString cart.id, userId := cart.userId,
               amount := cart.total } :=
  sales_rows_extract_fields [sampleCart] 0 (by decide)

/-- C4: on a valid country response every output row carries a present
2-letter code, and the output has exactly one row per response entry having
a 2-letter code (entries without one are dropped, never an error). -/
theorem countries_rows_two_letter (data : List CountryJson)
    (hv : validCountriesResponse data) :
    (∀ row ∈ get_countries_df data,
        ∃ s, row.country_code = some s ∧ s.length = 2) ∧
      (get_countries_df data).length
        = (data.filter fun c => hasTwoLetterCode c.cca2).length := by
  constructor
  · intro row hrow
    simp only [get_countries_df, List.mem_map] at hrow
    obtain ⟨c, hc, rfl⟩ := hrow
    have hcf := List.mem_filter.mp hc
    cases hcca : c.cca2 with
    | none => rw [hcca] at hcf; simp [truthy] at hcf
    | some s =>
      refine ⟨s, rfl, ?_⟩
      have htr := hcf.2
      rw [hcca] at htr
      simp only [truthy, Bool.not_eq_eq_eq_not, Bool.not_true] at htr
      have hvv := hv c hcf.1
      rw [hcca] at hvv
      simp only [validCca2, htr, Bool.false_or, beq_iff_eq] at hvv
      exact hvv
  · rw [get_countries_df, List.length_map]
    congr 1
    refine List.filter_congr fun c hc => ?_
    have hvv := hv c hc
    cases hcca : c.cca2 with
    | none => simp [truthy, hasTwoLetterCode]
    | some s =>
      rw [hcca] at hvv
      simp only [validCca2] at hvv
      cases hemp : s.isEmpty
      · simp only [hemp, Bool.false_or] at hvv
        simp [truthy, hasTwoLetterCode, hemp, hvv]
      · have hs : s = "" := (String.isEmpty_iff s).mp hemp
        subst hs
        decide

/-- Witness for C4 at a two-entry response with one invalid entry. -/
theorem countries_rows_two_letter_witness :
    (∃ s, sampleCountryRow.country_code = some s ∧ s.length = 2) ∧
      (get_countries_df [sampleCountryJson, sampleBadCountryJson]).length
        = ([sampleCountryJson, sampleBadCountryJson].filter
            fun c => hasTwoLetterCode c.cca2).length :=
  ⟨(countries_rows_two_letter [sampleCountryJson, sampleBadCountryJson]
      (by unfold validCountriesResponse; decide)).1 sampleCountryRow (by decide),
   (countries_rows_two_letter [sampleCountryJson, sampleBadCountryJson]
      (by unfold validCountriesResponse; decide)).2⟩

/-- C1 counterexample: with two country rows sharing the code `US`, the
enrichment join duplicates the matching fact row, so the output does not
have exactly as many rows as the fact table. -/
theorem enrich_dup_country_breaks_cardinality :
    ¬((df_enriched
        [{ sale_id := "1", country_code := some "US", amount := 10 }]
        [{ country_code := some "US", country_name := "United States",
           region := some "Americas" },
         { country_code := some "US", country_name := "United States of America",
           region := some "Americas" }]).length
      = ([({ sale_id := "1", country_code := some "US", amount := 10 }
            : SalesFactRow)]).length) := by
  decide

/-- C1 (amended): when the country table's codes are pairwise distinct (its
declared unique key), the enrichment left join preserves the fact table's
row count; and, for every country table, even one with duplicate codes, a
fact row whose code matches no country row survives with null
`country_name` and `region`. -/
theorem enrich_cardinality_and_null_fill (sales : List SalesFactRow)
    (countries : List CountryRow) :
    ((countries.map fun c => c.country_code).Nodup →
        (df_enriched sales countries).length = sales.length) ∧
      ∀ s ∈ sales,
        (∀ c ∈ countries,
            joinKeyMatch s.country_code c.country_code = false) →
          ({ sale_id := s.sale_id, amount := s.amount, country_name := none,
             region := none } : EnrichedRow) ∈ df_enriched sales countries := by
  constructor
  · intro hnd
    refine leftJoin_length _ _ _ _ _ fun s => ?_
    exact length_filter_le_one_of_nodup_keys countries
      (fun c => c.country_code) _ hnd
      (fun b1 b2 h1 h2 => joinKeyMatch_right_eq h1 h2)
  · intro s hs hn
    exact leftJoin_noMatch_mem countries _ _ _ hs hn

/-- Witness for C1: cardinality at a duplicate-free country table, and
null-filling of an unmatched fact row at a country table whose code `US`
appears twice. -/
theorem enrich_cardinality_and_null_fill_witness :
    (df_enriched [sampleFact, sampleFactNoMatch] [sampleCountryRow]).length
        = 2 ∧
      ({ sale_id := "2", amount := 5, country_name := none, region := none }
          : EnrichedRow)
        ∈ df_enriched [sampleFact, sampleFactNoMatch]
            [sampleCountryRow, sampleCountryRowDup] :=
  ⟨(enrich_cardinality_and_null_fill [sampleFact, sampleFactNoMatch]
      [sampleCountryRow]).1 (by decide),
   (enrich_cardinality_and_null_fill [sampleFact, sampleFactNoMatch]
      [sampleCountryRow, sampleCountryRowDup]).2 sampleFactNoMatch (by simp)
      (by decide)⟩

/-- C3 counterexample: with two fetched user records sharing `id` 1, the
carts-onto-users left join duplicates the cart row, so the fact table does
not have exactly as many rows as the fetched cart list. -/
theorem sales_join_dup_user_breaks_cardinality :
    ¬((get_sales_df
        [{ id := 1, country := some "USA" },
         { id := 1, country := some "France" }]
        [{ id := 1, userId := 1, total := 10 }]).length
      = ([({ id := 1, userId := 1, total := 10 } : CartJson)]).length) := by
  decide

/-- C3 (amended): when the fetched user records have pairwise distinct ids,
the sales fact table has exactly one row per fetched cart record, whether or
not a cart's user is found. -/
theorem sales_fact_count (users : List UserJson) (carts : List CartJson)
    (hnd : (users.map fun u => u.id).Nodup) :
    (get_sales_df users carts).length = carts.length := by
  have hkeys : ((users_rows users).map fun u => u.userId).Nodup := by
    have hmm : ((users_rows users).map fun u => u.userId)
        = users.map fun u => u.id := by
      simp [users_rows, List.map_map, Function.comp]
    rw [hmm]
    exact hnd
  rw [get_sales_df, List.length_map,
    leftJoin_length _ _ _ _ _ fun s =>
      length_filter_le_one_of_nodup_keys (users_rows users)
        (fun u => u.userId) _ hkeys
        (fun b1 b2 h1 h2 => by
          simp only [beq_iff_eq] at h1 h2
          exact h1.symm.trans h2),
    sales_rows, List.length_map]

/-- Witness for C3 at one user and one cart. -/
theorem sales_fact_count_witness :
    (get_sales_df [sampleUser] [sampleCart]).length = 1 :=
  sales_fact_count [sampleUser] [sampleCart] (by decide)

/-- C9: the enrichment join only adds `country_name` and `region`: every
enriched row keeps the `sale_id` and `amount` of a fact row it came from,
and every fact row reaches the output with its `sale_id` and `amount`
unchanged. -/
theorem enrich_preserves_fields (sales : List SalesFactRow)
    (countries : List CountryRow) :
    (∀ r ∈ df_enriched sales countries,
        ∃ s ∈ sales, r.sale_id = s.sale_id ∧ r.amount = s.amount) ∧
      ∀ s ∈ sales,
        ∃ r ∈ df_enriched sales countries,
          r.sale_id = s.sale_id ∧ r.amount = s.amount := by
  constructor
  · intro r hr
    obtain ⟨s, hs, hcase⟩ := mem_leftJoin hr
    rcases hcase with rfl | ⟨c, hc, hkey, rfl⟩
    · exact ⟨s, hs, rfl, rfl⟩
    · exact ⟨s, hs, rfl, rfl⟩
  · intro s hs
    obtain ⟨r, hr, hcase⟩ := leftJoin_covers countries _ _ _ hs
    rcases hcase with rfl | ⟨c, hc, rfl⟩
    · exact ⟨_, hr, rfl, rfl⟩
    · exact ⟨_, hr, rfl, rfl⟩

/-- Witness for C9 at a one-row fact table with a matching country row. -/
theorem enrich_preserves_fields_witness :
    ∃ s ∈ [sampleFact],
      sampleEnriched.sale_id = s.sale_id ∧
        sampleEnriched.amount = s.amount :=
  (enrich_preserves_fields [sampleFact] [sampleCountryRow]).1 sampleEnriched
    (by simp [df_enriched, leftJoin, joinKeyMatch, sampleFact,
      sampleCountryRow, sampleEnriched])

/-- C5: every row of the final enriched output carries the total of some
fetched cart, HALF_UP rounded to 2 decimal places; in particular its amount
times 100 is an integer. -/
theorem enriched_amount_rounded (users : List UserJson)
    (carts : List CartJson) (countries : List CountryRow) (r : EnrichedRow)
    (hr : r ∈ df_enriched (get_sales_df users carts) countries) :
    ∃ cart ∈ carts, r.amount = roundTo2 cart.total ∧
      (r.amount * 100).den = 1 := by
  obtain ⟨s, hs, hcase⟩ := mem_leftJoin hr
  have hamt : r.amount = s.amount := by
    rcases hcase with rfl | ⟨c, hc, hkey, rfl⟩ <;> rfl
  simp only [get_sales_df, List.mem_map] at hs
  obtain ⟨f, hf, rfl⟩ := hs
  obtain ⟨sr, hsr, hcase2⟩ := mem_leftJoin hf
  have hamt2 : f.amount = sr.amount := by
    rcases hcase2 with rfl | ⟨u, hu, hkey2, rfl⟩ <;> rfl
  simp only [sales_rows, List.mem_map] at hsr
  obtain ⟨cart, hcart, rfl⟩ := hsr
  have hfin : r.amount = roundTo2 cart.total := by
    rw [hamt]
    show roundTo2 f.amount = roundTo2 cart.total
    rw [hamt2]
  exact ⟨cart, hcart, hfin, by rw [hfin]; exact roundTo2_mul_100_den _⟩

/-- Witness for C5 at the sample responses, whose cart total is 12.345. -/
theorem enriched_amount_rounded_witness :
    ∃ cart ∈ [sampleCart],
      sampleEnrichedRounded.amount = roundTo2 cart.total ∧
        (sampleEnrichedRounded.amount * 100).den = 1 :=
  enriched_amount_rounded [sampleUser] [sampleCart] [sampleCountryRow]
    sampleEnrichedRounded
    (by
      have hUS : normalizeCountry (some "USA") = "US" := by decide
      have hid : toString (1 : Nat) = "1" := by decide
      simp [df_enriched, get_sales_df, sales_rows, users_rows, leftJoin,
        joinKeyMatch, hUS, hid, sampleUser, sampleCart, sampleCountryRow,
        sampleEnrichedRounded])

/-- C6 counterexample: a sales fact table that already contains the amount
12.345 is enriched with that amount unchanged, because the join projects
`amount` as is; the output is not the claimed row with amount 12.35. -/
theorem scenario_fact_not_rerounded :
    df_enriched
        [{ sale_id := "1", country_code := some "US", amount := 2469 / 200 }]
        [{ country_code := some "US", country_name := "United States",
           region := some "Americas" }]
      ≠ [{ sale_id := "1", amount := 247 / 20,
           country_name := some "United States",
           region := some "Americas" }] := by
  simp only [df_enriched, leftJoin, joinKeyMatch, List.filter_cons,
    List.filter_nil, beq_self_eq_true, if_true, List.isEmpty_cons,
    List.map_cons, List.map_nil, List.flatMap_cons, List.flatMap_nil,
    List.append_nil, ne_eq, List.cons.injEq, and_true,
    EnrichedRow.mk.injEq, true_and, not_and]
  intro heq
  norm_num at heq

/-- C6 (amended): rounding happens when the fact table is built, so the
scenario starts from a cart with total 12.345 whose user normalizes to
country code `US`: given the country `(US, United States, Americas)`, one
such user and one such cart, the pipeline's enriched output is exactly the
row `(sale_id 1, amount 12.35, United States, Americas)`. -/
theorem scenario_pipeline_concrete :
    pipeline
        { countries := [{ cca2 := some "US", nameCommon := "United States",
                          region := some "Americas" }],
          users := [{ id := 1, country := some "USA" }],
          carts := [{ id := 1, userId := 1, total := 2469 / 200 }] }
      = [{ sale_id := "1", amount := 247 / 20,
           country_name := some "United States",
           region := some "Americas" }] := by
  have hUS : normalizeCountry (some "USA") = "US" := by decide
  have hid : toString (1 : Nat) = "1" := by decide
  have htr : truthy (some "US") = true := by decide
  have hround : roundTo2 (2469 / 200) = 247 / 20 := by
    norm_num [roundTo2, roundHalfUp]
  have hcty : get_countries_df
      [{ cca2 := some "US", nameCommon := "United States",
         region := some "Americas" }]
      = [{ country_code := some "US", country_name := "United States",
           region := some "Americas" }] := by
    simp [get_countries_df, htr]
  have hfact : get_sales_df [{ id := 1, country := some "USA" }]
      [{ id := 1, userId := 1, total := 2469 / 200 }]
      = [{ sale_id := "1", country_code := some "US",
           amount := 247 / 20 }] := by
    simp [get_sales_df, sales_rows, users_rows, leftJoin, hUS, hid, hround]
  simp [pipeline, hcty, hfact, df_enriched, leftJoin, joinKeyMatch]

/-- C10: the notebook's output is a deterministic function of the three API
responses: two runs over identical response sequences produce the same
multiset of enriched rows. -/
theorem pipeline_deterministic (r1 r2 : ApiResponses) (h : r1 = r2) :
    Multiset.ofList (pipeline r1) = Multiset.ofList (pipeline r2) := by
  rw [h]

/-- Witness for C10 at the sample responses. -/
theorem pipeline_deterministic_witness :
    Multiset.ofList (pipeline sampleResponses)
      = Multiset.ofList (pipeline sampleResponses) :=
  pipeline_deterministic sampleResponses sampleResponses rfl

end BroadcastJoin
